import Mathlib

/-!
Verification of the PvP core of the CapybaraBackend repository
(`src/index.js`, SOCKET.IO turn-based PvP section): matchmaking queue,
per-match battle state machine, damage resolution, and disconnect handling.

The JavaScript code is shallowly embedded: each socket handler and helper
function becomes a pure Lean function from the relevant state to the new
state plus the list of outbound events it emits.  JS numbers holding HP are
modelled as `Int` (the code clamps with `Math.max(0, ...)`), cooldowns and
damage as `Nat` (they are only ever non-negative integers in the code), and
the random roll `Math.floor(Math.random() * 11)` is injected as a `Nat`
parameter (its real range `0..10` appears as a hypothesis where needed).
Action and status values are kept as the literal strings the code uses.
-/

namespace Capybara

/-- One entry of `waitingPlayers` / one element of `match.players`
(source: the object pushed in the `pvp:queue` handler; the opaque
`stats` field is not modelled, no PvP code reads it). -/
structure Player where
  socketId : String
  playerId : String
  username : String
  trophies : Int
deriving DecidableEq, Repr

/-- One combatant's battle record, `battleState.players[pid]`
(source: `createBattleState`): the spread identity fields plus
`hp`, `maxHp`, `action`, `specialCooldown`.  `action` is `null`
(`none`) or one of the strings `attack` / `defend` / `special`. -/
structure BPlayer where
  base : Player
  hp : Int
  maxHp : Int
  action : Option String
  specialCooldown : Nat
deriving DecidableEq, Repr

/-- `match.battleState` (source: `createBattleState`): `playerIds`
is kept as the two fields `id1`, `id2`, and the keyed object
`players` as the two records `bp1`, `bp2` (`players[id1] = bp1`,
`players[id2] = bp2`, for distinct ids). -/
structure BattleState where
  turn : Nat
  id1 : String
  id2 : String
  bp1 : BPlayer
  bp2 : BPlayer
  status : String
deriving DecidableEq, Repr

/-- A `match` object stored in `activeMatches` (source: `tryMatchPlayers`);
`players` is the ordered pair `player1`, `player2`; `startedAt` is not
modelled (never read by the PvP logic). -/
structure Match where
  id : String
  player1 : Player
  player2 : Player
  battleState : BattleState
deriving DecidableEq, Repr

/-- The two module-level mutable registries of the PvP section:
`waitingPlayers` (array) and `activeMatches` (Map, modelled as an
association list in insertion order). -/
structure ServerState where
  waitingPlayers : List Player
  activeMatches : List (String × Match)
deriving DecidableEq, Repr

/-- The payload of a `pvp:turn_result` emission (source: `turnResult`
in `resolveTurn`), with the two per-player maps flattened into
`_1` / `_2` fields following `playerIds` order. -/
structure TurnPayload where
  turn : Nat
  action1 : Option String
  action2 : Option String
  dmgTaken1 : Nat
  dmgTaken2 : Nat
  hp1 : Int
  hp2 : Int
  cd1 : Nat
  cd2 : Nat
deriving DecidableEq, Repr

/-- Outbound effects of the PvP code.  The first seven constructors are the
socket emissions the source performs (first argument: recipient socket id).
`applyTrophyDelta` is the external player-profile collaborator call named by
the specification (section 6); it is part of the observation vocabulary so
that claims about trophy forwarding can be stated — the embedded handlers,
translated from the source, never produce it. -/
inductive Event where
  | queued (sock : String) (position : Nat)
  | matchFound (sock : String) (matchId : String) (yourId : String)
      (oppId : String) (oppUsername : String) (oppTrophies : Int) (startHp : Int)
  | opponentReady (sock : String)
  | actionError (sock : String)
  | turnResult (sock : String) (payload : TurnPayload) (yourId : String) (oppId : String)
  | battleEnd (sock : String) (winnerId : String) (won : Bool) (trophyChange : Int)
  | opponentDisconnect (sock : String)
  | applyTrophyDelta (playerId : String) (delta : Int)
deriving DecidableEq, Repr

/-- `createBattleState(player1, player2)` (source lines 645-667). -/
def createBattleState (player1 player2 : Player) : BattleState :=
  { turn := 1
    id1 := player1.playerId
    id2 := player2.playerId
    bp1 := { base := player1, hp := 100, maxHp := 100, action := none, specialCooldown := 0 }
    bp2 := { base := player2, hp := 100, maxHp := 100, action := none, specialCooldown := 0 }
    status := "waiting_actions" }

/-- Base damage of one side (source `resolveTurn`, the two
`// Player N action` blocks).  `r` is the injected value of
`Math.floor(Math.random() * 11)`, so `attack` deals `15 + r`. -/
def baseDamage (p : BPlayer) (r : Nat) : Nat :=
  if p.action = some "attack" then 15 + r
  else if p.action = some "special" ∧ p.specialCooldown = 0 then 30
  else 0

/-- The cooldown write performed inside the `special` damage branch
(source: `p.specialCooldown = 2`). -/
def afterSpecialSet (p : BPlayer) : BPlayer :=
  if p.action = some "special" ∧ p.specialCooldown = 0 then
    { p with specialCooldown := 2 }
  else p

/-- Defense mitigation (source: `if (opp.action === 'defend') dmg =
Math.floor(dmg * 0.5)`); for a natural number `Math.floor(d * 0.5) = d / 2`. -/
def mitigate (dmg : Nat) (oppAction : Option String) : Nat :=
  if oppAction = some "defend" then dmg / 2 else dmg

/-- HP update (source: `p.hp = Math.max(0, p.hp - incoming)`). -/
def applyDamage (p : BPlayer) (incoming : Nat) : BPlayer :=
  { p with hp := max 0 (p.hp - (incoming : Int)) }

/-- Cooldown decay (source: `if (p.specialCooldown > 0 && p.action !==
'special') p.specialCooldown--`). -/
def decayCooldown (p : BPlayer) : BPlayer :=
  if p.specialCooldown > 0 ∧ p.action ≠ some "special" then
    { p with specialCooldown := p.specialCooldown - 1 }
  else p

/-- The winner check of `resolveTurn` (source: `// Check for winner`),
applied to the two already-clamped HP values. -/
def computeWinner (hp1 hp2 : Int) (p1Id p2Id : String) : Option String :=
  if hp1 ≤ 0 ∧ hp2 ≤ 0 then some (if hp1 > hp2 then p1Id else p2Id)
  else if hp1 ≤ 0 then some p2Id
  else if hp2 ≤ 0 then some p1Id
  else none

/-- Result of the pure per-combatant part of `resolveTurn`: the two updated
battle records and the two post-mitigation damage outputs. -/
structure ResolvedPair where
  q1 : BPlayer
  q2 : BPlayer
  p1Damage : Nat
  p2Damage : Nat
deriving DecidableEq, Repr

/-- The damage / HP / cooldown pipeline of `resolveTurn` in source order:
base damage and in-branch cooldown write for each side, then defense
mitigation, then HP clamping, then cooldown decay.  `r1`, `r2` are the
injected attack rolls of the two sides. -/
def resolvePlayers (p1 p2 : BPlayer) (r1 r2 : Nat) : ResolvedPair :=
  let p1Damage := baseDamage p1 r1
  let p1a := afterSpecialSet p1
  let p2Damage := baseDamage p2 r2
  let p2a := afterSpecialSet p2
  let p1Damage := mitigate p1Damage p2a.action
  let p2Damage := mitigate p2Damage p1a.action
  let p1b := applyDamage p1a p2Damage
  let p2b := applyDamage p2a p1Damage
  let p1c := decayCooldown p1b
  let p2c := decayCooldown p2b
  { q1 := p1c, q2 := p2c, p1Damage := p1Damage, p2Damage := p2Damage }

def winnerTrophyGain : Int := 20

def loserTrophyLoss : Int := 10

/-- `resolveTurn(matchId, match)` (source lines 670-771).  Returns the
updated match object, the emitted events in emission order, and whether
`activeMatches.delete(matchId)` was executed.  Each `pvp:turn_result` goes
to both `match.players` in order, personalised; on a winner the status
becomes `finished`, both sides get `pvp:battle_end` with the fixed
`+20` / `-10` trophy change, and the match is deleted; otherwise the
actions reset to `null`, the turn counter increments and the status
returns to `waiting_actions`. -/
def resolveTurn (m : Match) (r1 r2 : Nat) : Match × List Event × Bool :=
  let battle := m.battleState
  let res := resolvePlayers battle.bp1 battle.bp2 r1 r2
  let tr : TurnPayload :=
    { turn := battle.turn
      action1 := res.q1.action
      action2 := res.q2.action
      dmgTaken1 := res.p2Damage
      dmgTaken2 := res.p1Damage
      hp1 := res.q1.hp
      hp2 := res.q2.hp
      cd1 := res.q1.specialCooldown
      cd2 := res.q2.specialCooldown }
  let turnEvents : List Event :=
    [m.player1, m.player2].map (fun p =>
      Event.turnResult p.socketId tr p.playerId
        (if p.playerId = battle.id1 then battle.id2 else battle.id1))
  match computeWinner res.q1.hp res.q2.hp battle.id1 battle.id2 with
  | some w =>
      let battle := { battle with bp1 := res.q1, bp2 := res.q2, status := "finished" }
      let endEvents : List Event :=
        [m.player1, m.player2].map (fun p =>
          Event.battleEnd p.socketId w (p.playerId == w)
            (if p.playerId == w then winnerTrophyGain else -loserTrophyLoss))
      ({ m with battleState := battle }, turnEvents ++ endEvents, true)
  | none =>
      let battle := { battle with
        bp1 := { res.q1 with action := none }
        bp2 := { res.q2 with action := none }
        turn := battle.turn + 1
        status := "waiting_actions" }
      ({ m with battleState := battle }, turnEvents, false)

/-- `activeMatches.get(matchId)` on the association-list model. -/
def lookupMatch (ms : List (String × Match)) (mid : String) : Option Match :=
  (ms.find? (fun q => q.1 == mid)).map (fun q => q.2)

/-- Replace the stored match for `mid` (models in-place mutation of the
object held by the Map). -/
def updateMatch (ms : List (String × Match)) (mid : String) (m : Match) :
    List (String × Match) :=
  ms.map (fun q => if q.1 == mid then (mid, m) else q)

/-- `activeMatches.delete(matchId)`. -/
def removeMatch (ms : List (String × Match)) (mid : String) : List (String × Match) :=
  ms.filter (fun q => !(q.1 == mid))

/-- `match.players.find(p => p.socketId === socket.id)`. -/
def findPlayer (m : Match) (sock : String) : Option Player :=
  [m.player1, m.player2].find? (fun p => p.socketId == sock)

/-- `match.players.find(p => p.socketId !== socket.id)`. -/
def findOpponent (m : Match) (sock : String) : Option Player :=
  [m.player1, m.player2].find? (fun p => !(p.socketId == sock))

/-- `battleState.players[pid]` keyed lookup (the two playerIds of a real
match are distinct: the queue's per-player uniqueness guarantees it). -/
def BattleState.getBP (b : BattleState) (pid : String) : Option BPlayer :=
  if pid = b.id1 then some b.bp1
  else if pid = b.id2 then some b.bp2
  else none

/-- Write `battlePlayer.action = action` back into the battle state. -/
def BattleState.setBPAction (b : BattleState) (pid : String) (a : String) : BattleState :=
  if pid = b.id1 then { b with bp1 := { b.bp1 with action := some a } }
  else if pid = b.id2 then { b with bp2 := { b.bp2 with action := some a } }
  else b

/-- `battle.playerIds.every(id => players[id].action !== null)`. -/
def allSubmitted (b : BattleState) : Bool :=
  [b.id1, b.id2].all (fun i =>
    match b.getBP i with
    | some bp => bp.action.isSome
    | none => false)

/-- The `battlePlayer.action = action` write of the `pvp:submit_action`
handler, as a whole-match update. -/
def withAction (m : Match) (pid a : String) : Match :=
  { m with battleState := m.battleState.setBPAction pid a }

/-- The `match.battleState.status = 'resolving'` write of the
`pvp:submit_action` handler. -/
def withResolving (m : Match) : Match :=
  { m with battleState := { m.battleState with status := "resolving" } }

/-- The `pvp:opponent_ready` notification of the `pvp:submit_action`
handler (sent when the opponent lookup succeeds). -/
def readyEventsFor (m : Match) (sock : String) : List Event :=
  match findOpponent m sock with
  | some opp => [Event.opponentReady opp.socketId]
  | none => []

/-- The accepting tail of the `pvp:submit_action` handler, after all checks
passed for `player` in match `m`: record the action, notify the opponent,
and if both actions are now present set the status to `resolving` and run
`resolveTurn` synchronously (removing the match from the registry when the
resolution deleted it, otherwise storing the updated match). -/
def resolvedOut (m : Match) (pid a : String) (r1 r2 : Nat) : Match × List Event × Bool :=
  resolveTurn (withResolving (withAction m pid a)) r1 r2

def recordAndResolve (st : ServerState) (sock mid a : String) (m : Match)
    (player : Player) (r1 r2 : Nat) : ServerState × List Event :=
  if allSubmitted (withAction m player.playerId a).battleState then
    if (resolvedOut m player.playerId a r1 r2).2.2 then
      ({ st with activeMatches := removeMatch st.activeMatches mid },
        readyEventsFor (withAction m player.playerId a) sock ++
          (resolvedOut m player.playerId a r1 r2).2.1)
    else
      ({ st with activeMatches := updateMatch st.activeMatches mid (resolvedOut m player.playerId a r1 r2).1 },
        readyEventsFor (withAction m player.playerId a) sock ++
          (resolvedOut m player.playerId a r1 r2).2.1)
  else
    ({ st with activeMatches := updateMatch st.activeMatches mid (withAction m player.playerId a) },
      readyEventsFor (withAction m player.playerId a) sock)

/-- The `pvp:submit_action` handler (source lines 802-839).  `sock` is the
submitting socket, `mid` / `a` the payload, `r1` / `r2` the injected rolls
used if this submission completes the turn.  Mirrors the source checks in
order: unknown match or non-`waiting_actions` status, socket not a member,
combatant already has a pending action, action not in
`{attack, defend, special}` — all silent no-ops; `special` on positive
cooldown emits `pvp:action_error` to the submitter and changes nothing.
A valid submission continues with `recordAndResolve`. -/
def submitAction (st : ServerState) (sock mid a : String) (r1 r2 : Nat) :
    ServerState × List Event :=
  match lookupMatch st.activeMatches mid with
  | none => (st, [])
  | some m =>
    if m.battleState.status ≠ "waiting_actions" then (st, [])
    else
      match findPlayer m sock with
      | none => (st, [])
      | some player =>
        match m.battleState.getBP player.playerId with
        | none => (st, [])
        | some bp =>
          if bp.action ≠ none then (st, [])
          else if ¬ (a = "attack" ∨ a = "defend" ∨ a = "special") then (st, [])
          else if a = "special" ∧ bp.specialCooldown > 0 then
            (st, [Event.actionError sock])
          else recordAndResolve st sock mid a m player r1 r2

/-- The `match` object built by `tryMatchPlayers` (source lines 881-886). -/
def newMatchFor (newId : String) (player1 player2 : Player) : Match :=
  { id := newId
    player1 := player1
    player2 := player2
    battleState := createBattleState player1 player2 }

/-- `tryMatchPlayers()` (source lines 874-915).  At most one pair is formed
per call: if fewer than two entries wait, nothing happens; otherwise the two
front entries are shifted off, a match with a fresh id (`newId`, injected in
place of `uuidv4()`) is registered, and both sides receive
`pvp:match_found`. -/
def tryMatchPlayers (st : ServerState) (newId : String) : ServerState × List Event :=
  match st.waitingPlayers with
  | player1 :: player2 :: rest =>
      ({ waitingPlayers := rest
         activeMatches := st.activeMatches ++ [(newId, newMatchFor newId player1 player2)] },
       [Event.matchFound player1.socketId newId player1.playerId
          player2.playerId player2.username player2.trophies 100,
        Event.matchFound player2.socketId newId player2.playerId
          player1.playerId player1.username player1.trophies 100])
  | _ => (st, [])

/-- The enqueue part of the `pvp:queue` handler (source lines 777-791):
`findIndex` + `splice` (remove-first-matching) of an existing entry with the
same `playerId`, then push of the fresh entry; returns the new state and
`waitingPlayers.length`, the value reported in `pvp:queued`. -/
def enqueueStep (st : ServerState) (sock pid uname : String) (troph : Int) :
    ServerState × Nat :=
  let wp := st.waitingPlayers.eraseP (fun p => p.playerId == pid)
  let entry : Player := { socketId := sock, playerId := pid, username := uname, trophies := troph }
  let wp2 := wp ++ [entry]
  ({ st with waitingPlayers := wp2 }, wp2.length)

/-- The full `pvp:queue` handler (source lines 777-793): enqueue, emit
`pvp:queued {position}`, then `tryMatchPlayers()`. -/
def queueHandler (st : ServerState) (sock pid uname : String) (troph : Int)
    (newId : String) : ServerState × List Event :=
  let e := enqueueStep st sock pid uname troph
  let t := tryMatchPlayers e.1 newId
  (t.1, Event.queued sock e.2 :: t.2)

/-- The `pvp:leave` handler (source lines 796-799): remove the first queue
entry with this socket id, if any. -/
def leaveQueue (st : ServerState) (sock : String) : ServerState :=
  { st with waitingPlayers := st.waitingPlayers.eraseP (fun p => p.socketId == sock) }

/-- Does the match contain this socket (`match.players.some(...)`)? -/
def matchHasSocket (m : Match) (sock : String) : Bool :=
  [m.player1, m.player2].any (fun p => p.socketId == sock)

/-- The `disconnect` handler (source lines 855-870): remove the first queue
entry with this socket; for every active match containing the socket, emit
`pvp:opponent_disconnect` to the first member whose socket differs, and
delete the match. -/
def disconnectHandler (st : ServerState) (sock : String) : ServerState × List Event :=
  let wp := st.waitingPlayers.eraseP (fun p => p.socketId == sock)
  let affected := st.activeMatches.filter (fun q => matchHasSocket q.2 sock)
  let remaining := st.activeMatches.filter (fun q => !(matchHasSocket q.2 sock))
  let evs := affected.flatMap (fun q =>
    match findOpponent q.2 sock with
    | some opp => [Event.opponentDisconnect opp.socketId]
    | none => [])
  ({ waitingPlayers := wp, activeMatches := remaining }, evs)

/-! ## Basic lemmas about the resolution pipeline -/

theorem afterSpecialSet_action (p : BPlayer) : (afterSpecialSet p).action = p.action := by
  unfold afterSpecialSet; split <;> rfl

theorem afterSpecialSet_hp (p : BPlayer) : (afterSpecialSet p).hp = p.hp := by
  unfold afterSpecialSet; split <;> rfl

theorem applyDamage_action (p : BPlayer) (d : Nat) : (applyDamage p d).action = p.action := rfl

theorem applyDamage_cd (p : BPlayer) (d : Nat) :
    (applyDamage p d).specialCooldown = p.specialCooldown := rfl

theorem applyDamage_hp (p : BPlayer) (d : Nat) :
    (applyDamage p d).hp = max 0 (p.hp - (d : Int)) := rfl

theorem decayCooldown_hp (p : BPlayer) : (decayCooldown p).hp = p.hp := by
  unfold decayCooldown; split <;> rfl

theorem decayCooldown_action (p : BPlayer) : (decayCooldown p).action = p.action := by
  unfold decayCooldown; split <;> rfl

theorem resolvePlayers_q1_action (p1 p2 : BPlayer) (r1 r2 : Nat) :
    (resolvePlayers p1 p2 r1 r2).q1.action = p1.action := by
  unfold resolvePlayers
  simp [decayCooldown_action, applyDamage_action, afterSpecialSet_action]

theorem resolvePlayers_q2_action (p1 p2 : BPlayer) (r1 r2 : Nat) :
    (resolvePlayers p1 p2 r1 r2).q2.action = p2.action := by
  unfold resolvePlayers
  simp [decayCooldown_action, applyDamage_action, afterSpecialSet_action]

theorem resolvePlayers_p1Damage (p1 p2 : BPlayer) (r1 r2 : Nat) :
    (resolvePlayers p1 p2 r1 r2).p1Damage = mitigate (baseDamage p1 r1) p2.action := by
  unfold resolvePlayers
  simp [afterSpecialSet_action]

theorem resolvePlayers_p2Damage (p1 p2 : BPlayer) (r1 r2 : Nat) :
    (resolvePlayers p1 p2 r1 r2).p2Damage = mitigate (baseDamage p2 r2) p1.action := by
  unfold resolvePlayers
  simp [afterSpecialSet_action]

theorem resolvePlayers_q1_hp (p1 p2 : BPlayer) (r1 r2 : Nat) :
    (resolvePlayers p1 p2 r1 r2).q1.hp =
      max 0 (p1.hp - ((resolvePlayers p1 p2 r1 r2).p2Damage : Int)) := by
  unfold resolvePlayers
  simp [decayCooldown_hp, applyDamage_hp, afterSpecialSet_hp]

theorem resolvePlayers_q2_hp (p1 p2 : BPlayer) (r1 r2 : Nat) :
    (resolvePlayers p1 p2 r1 r2).q2.hp =
      max 0 (p2.hp - ((resolvePlayers p1 p2 r1 r2).p1Damage : Int)) := by
  unfold resolvePlayers
  simp [decayCooldown_hp, applyDamage_hp, afterSpecialSet_hp]

theorem resolvePlayers_q1_hp_nonneg (p1 p2 : BPlayer) (r1 r2 : Nat) :
    0 ≤ (resolvePlayers p1 p2 r1 r2).q1.hp := by
  rw [resolvePlayers_q1_hp]; exact le_max_left 0 _

theorem resolvePlayers_q2_hp_nonneg (p1 p2 : BPlayer) (r1 r2 : Nat) :
    0 ≤ (resolvePlayers p1 p2 r1 r2).q2.hp := by
  rw [resolvePlayers_q2_hp]; exact le_max_left 0 _

/-! ## Claim C6 — base damage -/

/-- Claim C6: for every combatant state reaching the Resolver, base damage is
the integer given by: `attack` yields `15 + roll` with the injected roll in
`[0, 10]`, hence a value in `[15, 25]` (and every value in `[15, 25]` is
realised by exactly one roll, so a uniform roll gives a uniform damage);
`special` with cooldown `0` yields exactly `30` and writes cooldown `2`;
`defend` or any other action (including `special` on positive cooldown)
yields `0`. -/
theorem baseDamage_spec (p : BPlayer) (r : Nat) (hr : r ≤ 10) :
    (p.action = some "attack" → 15 ≤ baseDamage p r ∧ baseDamage p r ≤ 25) ∧
    (p.action = some "special" → p.specialCooldown = 0 →
      baseDamage p r = 30 ∧ (afterSpecialSet p).specialCooldown = 2) ∧
    (p.action ≠ some "attack" → ¬ (p.action = some "special" ∧ p.specialCooldown = 0) →
      baseDamage p r = 0) ∧
    (∀ d : Nat, 15 ≤ d → d ≤ 25 →
      ∃ r2 : Nat, r2 ≤ 10 ∧
        baseDamage { p with action := some "attack" } r2 = d ∧
        ∀ r3 : Nat, baseDamage { p with action := some "attack" } r3 = d → r3 = r2) := by
  refine ⟨?_, ?_, ?_, ?_⟩
  · intro ha
    unfold baseDamage
    rw [if_pos ha]
    omega
  · intro ha hc
    unfold baseDamage afterSpecialSet
    rw [if_neg (by simp [ha]), if_pos ⟨ha, hc⟩, if_pos ⟨ha, hc⟩]
    exact ⟨rfl, rfl⟩
  · intro ha hs
    unfold baseDamage
    rw [if_neg ha, if_neg hs]
  · intro d hd1 hd2
    refine ⟨d - 15, by omega, by unfold baseDamage; simp; omega, ?_⟩
    intro r3 h3
    unfold baseDamage at h3
    simp at h3
    omega

/-- A concrete attacking combatant used by the C6 witness. -/
def attackerExample : BPlayer :=
  { base := ⟨"s1", "p1", "u1", 0⟩
    hp := 100
    maxHp := 100
    action := some "attack"
    specialCooldown := 0 }

/-- Witness for C6 at a concrete combatant and roll. -/
theorem baseDamage_spec_witness :
    15 ≤ baseDamage attackerExample 7 ∧ baseDamage attackerExample 7 ≤ 25 :=
  (baseDamage_spec attackerExample 7 (by decide)).1 rfl

/-! ## Claim C7 — defense mitigation -/

/-- The concrete scenario of the spec: both sides at full HP, the first
combatant attacks with roll 5 (damage `15 + 5 = 20`), the second defends. -/
def mitigationMatch : Match :=
  { id := "m7"
    player1 := ⟨"sA", "A", "alice", 0⟩
    player2 := ⟨"sB", "B", "bob", 0⟩
    battleState :=
      { turn := 1, id1 := "A", id2 := "B"
        bp1 := { base := ⟨"sA", "A", "alice", 0⟩, hp := 100, maxHp := 100,
                 action := some "attack", specialCooldown := 0 }
        bp2 := { base := ⟨"sB", "B", "bob", 0⟩, hp := 100, maxHp := 100,
                 action := some "defend", specialCooldown := 0 }
        status := "resolving" } }

/-- Claim C7: a side's outgoing damage is halved (floored) exactly when the
opposing side defends, and a side's outgoing damage never depends on its own
defend (it is a function of its own base damage and the opponent's action
only); concretely, from full HP with the first combatant attacking at
roll 5 (damage 20) and the second defending, the resulting HP are 100
and 90. -/
theorem defend_mitigation_spec :
    (∀ p1 p2 : BPlayer, ∀ r1 r2 : Nat, p2.action = some "defend" →
      (resolvePlayers p1 p2 r1 r2).p1Damage = baseDamage p1 r1 / 2) ∧
    (∀ p1 p2 : BPlayer, ∀ r1 r2 : Nat, p2.action ≠ some "defend" →
      (resolvePlayers p1 p2 r1 r2).p1Damage = baseDamage p1 r1) ∧
    (∀ p1 p2 : BPlayer, ∀ r1 r2 : Nat,
      (resolvePlayers p1 p2 r1 r2).p2Damage = mitigate (baseDamage p2 r2) p1.action) ∧
    ((resolveTurn mitigationMatch 5 0).1.battleState.bp1.hp = 100 ∧
     (resolveTurn mitigationMatch 5 0).1.battleState.bp2.hp = 90) := by
  refine ⟨?_, ?_, ?_, by decide⟩
  · intro p1 p2 r1 r2 h
    rw [resolvePlayers_p1Damage]
    unfold mitigate
    rw [if_pos h]
  · intro p1 p2 r1 r2 h
    rw [resolvePlayers_p1Damage]
    unfold mitigate
    rw [if_neg h]
  · intro p1 p2 r1 r2
    exact resolvePlayers_p2Damage p1 p2 r1 r2

/-- Witness for C7: the defended attack of the concrete scenario is halved
from 20 to 10. -/
theorem defend_mitigation_spec_witness :
    (resolvePlayers mitigationMatch.battleState.bp1 mitigationMatch.battleState.bp2 5 0).p1Damage
      = baseDamage mitigationMatch.battleState.bp1 5 / 2 :=
  defend_mitigation_spec.1 mitigationMatch.battleState.bp1 mitigationMatch.battleState.bp2 5 0
    (by decide)

/-! ## Branch lemmas for `resolveTurn` -/

theorem resolveTurn_bp1_hp (m : Match) (r1 r2 : Nat) :
    (resolveTurn m r1 r2).1.battleState.bp1.hp =
      (resolvePlayers m.battleState.bp1 m.battleState.bp2 r1 r2).q1.hp := by
  unfold resolveTurn
  cases h : computeWinner (resolvePlayers m.battleState.bp1 m.battleState.bp2 r1 r2).q1.hp
      (resolvePlayers m.battleState.bp1 m.battleState.bp2 r1 r2).q2.hp
      m.battleState.id1 m.battleState.id2 <;> simp [h]

theorem resolveTurn_bp2_hp (m : Match) (r1 r2 : Nat) :
    (resolveTurn m r1 r2).1.battleState.bp2.hp =
      (resolvePlayers m.battleState.bp1 m.battleState.bp2 r1 r2).q2.hp := by
  unfold resolveTurn
  cases h : computeWinner (resolvePlayers m.battleState.bp1 m.battleState.bp2 r1 r2).q1.hp
      (resolvePlayers m.battleState.bp1 m.battleState.bp2 r1 r2).q2.hp
      m.battleState.id1 m.battleState.id2 <;> simp [h]

theorem resolveTurn_cd1 (m : Match) (r1 r2 : Nat) :
    (resolveTurn m r1 r2).1.battleState.bp1.specialCooldown =
      (resolvePlayers m.battleState.bp1 m.battleState.bp2 r1 r2).q1.specialCooldown := by
  unfold resolveTurn
  cases h : computeWinner (resolvePlayers m.battleState.bp1 m.battleState.bp2 r1 r2).q1.hp
      (resolvePlayers m.battleState.bp1 m.battleState.bp2 r1 r2).q2.hp
      m.battleState.id1 m.battleState.id2 <;> simp [h]

theorem resolveTurn_cd2 (m : Match) (r1 r2 : Nat) :
    (resolveTurn m r1 r2).1.battleState.bp2.specialCooldown =
      (resolvePlayers m.battleState.bp1 m.battleState.bp2 r1 r2).q2.specialCooldown := by
  unfold resolveTurn
  cases h : computeWinner (resolvePlayers m.battleState.bp1 m.battleState.bp2 r1 r2).q1.hp
      (resolvePlayers m.battleState.bp1 m.battleState.bp2 r1 r2).q2.hp
      m.battleState.id1 m.battleState.id2 <;> simp [h]

theorem resolveTurn_deleted_iff_winner (m : Match) (r1 r2 : Nat) :
    (resolveTurn m r1 r2).2.2 = true ↔
      (computeWinner (resolvePlayers m.battleState.bp1 m.battleState.bp2 r1 r2).q1.hp
        (resolvePlayers m.battleState.bp1 m.battleState.bp2 r1 r2).q2.hp
        m.battleState.id1 m.battleState.id2).isSome := by
  unfold resolveTurn
  cases h : computeWinner (resolvePlayers m.battleState.bp1 m.battleState.bp2 r1 r2).q1.hp
      (resolvePlayers m.battleState.bp1 m.battleState.bp2 r1 r2).q2.hp
      m.battleState.id1 m.battleState.id2 <;> simp [h]

theorem resolveTurn_finished_iff (m : Match) (r1 r2 : Nat) :
    ((resolveTurn m r1 r2).1.battleState.status = "finished") ↔
      (resolveTurn m r1 r2).2.2 = true := by
  unfold resolveTurn
  cases h : computeWinner (resolvePlayers m.battleState.bp1 m.battleState.bp2 r1 r2).q1.hp
      (resolvePlayers m.battleState.bp1 m.battleState.bp2 r1 r2).q2.hp
      m.battleState.id1 m.battleState.id2 <;> simp [h]

theorem resolveTurn_not_finished_status (m : Match) (r1 r2 : Nat)
    (h : (resolveTurn m r1 r2).2.2 = false) :
    (resolveTurn m r1 r2).1.battleState.status = "waiting_actions" := by
  revert h
  unfold resolveTurn
  cases h : computeWinner (resolvePlayers m.battleState.bp1 m.battleState.bp2 r1 r2).q1.hp
      (resolvePlayers m.battleState.bp1 m.battleState.bp2 r1 r2).q2.hp
      m.battleState.id1 m.battleState.id2 <;> simp [h]

theorem resolveTurn_winner_actions (m : Match) (r1 r2 : Nat)
    (h : (resolveTurn m r1 r2).2.2 = true) :
    (resolveTurn m r1 r2).1.battleState.bp1.action = m.battleState.bp1.action ∧
    (resolveTurn m r1 r2).1.battleState.bp2.action = m.battleState.bp2.action := by
  revert h
  unfold resolveTurn
  cases h : computeWinner (resolvePlayers m.battleState.bp1 m.battleState.bp2 r1 r2).q1.hp
      (resolvePlayers m.battleState.bp1 m.battleState.bp2 r1 r2).q2.hp
      m.battleState.id1 m.battleState.id2 <;>
    simp [h, resolvePlayers_q1_action, resolvePlayers_q2_action]

theorem resolveTurn_winner_events (m : Match) (r1 r2 : Nat) (w : String)
    (h : computeWinner (resolvePlayers m.battleState.bp1 m.battleState.bp2 r1 r2).q1.hp
      (resolvePlayers m.battleState.bp1 m.battleState.bp2 r1 r2).q2.hp
      m.battleState.id1 m.battleState.id2 = some w) :
    Event.battleEnd m.player1.socketId w (m.player1.playerId == w)
      (if m.player1.playerId == w then winnerTrophyGain else -loserTrophyLoss)
      ∈ (resolveTurn m r1 r2).2.1 ∧
    Event.battleEnd m.player2.socketId w (m.player2.playerId == w)
      (if m.player2.playerId == w then winnerTrophyGain else -loserTrophyLoss)
      ∈ (resolveTurn m r1 r2).2.1 := by
  unfold resolveTurn
  simp [h]

theorem battleEnd_winner_eq (m : Match) (r1 r2 : Nat) (s w : String) (b : Bool) (t : Int)
    (hmem : Event.battleEnd s w b t ∈ (resolveTurn m r1 r2).2.1) :
    computeWinner (resolvePlayers m.battleState.bp1 m.battleState.bp2 r1 r2).q1.hp
      (resolvePlayers m.battleState.bp1 m.battleState.bp2 r1 r2).q2.hp
      m.battleState.id1 m.battleState.id2 = some w := by
  revert hmem
  unfold resolveTurn
  cases h : computeWinner (resolvePlayers m.battleState.bp1 m.battleState.bp2 r1 r2).q1.hp
      (resolvePlayers m.battleState.bp1 m.battleState.bp2 r1 r2).q2.hp
      m.battleState.id1 m.battleState.id2 with
  | none => simp [h]
  | some v =>
      simp [h]
      rintro (⟨-, hw, -⟩ | ⟨-, hw, -⟩) <;> exact hw.symm

theorem resolveTurn_no_external (m : Match) (r1 r2 : Nat) (e : Event)
    (he : e ∈ (resolveTurn m r1 r2).2.1) : ∀ pid d, e ≠ Event.applyTrophyDelta pid d := by
  revert he
  unfold resolveTurn
  cases h : computeWinner (resolvePlayers m.battleState.bp1 m.battleState.bp2 r1 r2).q1.hp
      (resolvePlayers m.battleState.bp1 m.battleState.bp2 r1 r2).q2.hp
      m.battleState.id1 m.battleState.id2 <;> simp [h] <;> intro hmem <;>
    rcases hmem with rfl | rfl | rfl | rfl <;> simp

/-! ## Claim C1 — simultaneous knockout -/

/-- The spec scenario for C1: the first combatant at 25 HP and the second at
15 HP, both using `special` with cooldown 0 (30 damage each way), so the
post-damage HP values are `-5` and `-15`. -/
def koMatch : Match :=
  { id := "m1"
    player1 := ⟨"sA", "A", "alice", 0⟩
    player2 := ⟨"sB", "B", "bob", 0⟩
    battleState :=
      { turn := 4, id1 := "A", id2 := "B"
        bp1 := { base := ⟨"sA", "A", "alice", 0⟩, hp := 25, maxHp := 100,
                 action := some "special", specialCooldown := 0 }
        bp2 := { base := ⟨"sB", "B", "bob", 0⟩, hp := 15, maxHp := 100,
                 action := some "special", specialCooldown := 0 }
        status := "resolving" } }

/-- Counterexample to C1: with post-damage HP `-5` (first combatant "A")
versus `-15` (second combatant "B"), the code clamps both HP to 0 *before*
the winner comparison, so `p1.hp > p2.hp` is `0 > 0` and the declared
winner is "B" — not "A" as the claim requires. -/
theorem simultaneousKO_claim_counterexample :
    koMatch.battleState.bp1.hp - 30 = -5 ∧
    koMatch.battleState.bp2.hp - 30 = -15 ∧
    (resolveTurn koMatch 0 0).2.1.drop 2 =
      [Event.battleEnd "sA" "B" false (-10), Event.battleEnd "sB" "B" true 20] ∧
    ¬ Event.battleEnd "sA" "A" true 20 ∈ (resolveTurn koMatch 0 0).2.1 ∧
    ¬ Event.battleEnd "sB" "A" false (-10) ∈ (resolveTurn koMatch 0 0).2.1 := by
  decide

/-- Claim C1 as amended: when both combatants' resulting HP are `<= 0` in
the same turn, both stored HP values have already been clamped to 0, so the
comparison `p1.hp > p2.hp` always fails and the declared winner is always
the second combatant (`playerIds[1]`), regardless of the post-damage
margins. -/
theorem simultaneousKO_secondWins (m : Match) (r1 r2 : Nat)
    (h1 : (resolveTurn m r1 r2).1.battleState.bp1.hp ≤ 0)
    (h2 : (resolveTurn m r1 r2).1.battleState.bp2.hp ≤ 0) :
    ∀ s w b t, Event.battleEnd s w b t ∈ (resolveTurn m r1 r2).2.1 →
      w = m.battleState.id2 := by
  intro s w b t hmem
  have hw := battleEnd_winner_eq m r1 r2 s w b t hmem
  rw [resolveTurn_bp1_hp] at h1
  rw [resolveTurn_bp2_hp] at h2
  have e1 : (resolvePlayers m.battleState.bp1 m.battleState.bp2 r1 r2).q1.hp = 0 :=
    le_antisymm h1 (resolvePlayers_q1_hp_nonneg m.battleState.bp1 m.battleState.bp2 r1 r2)
  have e2 : (resolvePlayers m.battleState.bp1 m.battleState.bp2 r1 r2).q2.hp = 0 :=
    le_antisymm h2 (resolvePlayers_q2_hp_nonneg m.battleState.bp1 m.battleState.bp2 r1 r2)
  rw [e1, e2] at hw
  unfold computeWinner at hw
  simp at hw
  exact hw.symm

/-- Witness for the amended C1 at the concrete scenario: the winner named by
the battle-end notice delivered to `sB` is the second combatant. -/
theorem simultaneousKO_secondWins_witness :
    ("B" : String) = koMatch.battleState.id2 :=
  simultaneousKO_secondWins koMatch 0 0 (by decide) (by decide)
    "sB" "B" true 20 (by decide)

/-! ## Cooldown dynamics lemmas -/

theorem decayCooldown_applyDamage_cd (p : BPlayer) (d : Nat) :
    (decayCooldown (applyDamage p d)).specialCooldown = (decayCooldown p).specialCooldown := by
  unfold decayCooldown applyDamage
  simp only
  split <;> rfl

theorem resolvePlayers_q1_cd (p1 p2 : BPlayer) (r1 r2 : Nat) :
    (resolvePlayers p1 p2 r1 r2).q1.specialCooldown =
      (decayCooldown (afterSpecialSet p1)).specialCooldown := by
  unfold resolvePlayers
  simp [decayCooldown_applyDamage_cd]

theorem resolvePlayers_q2_cd (p1 p2 : BPlayer) (r1 r2 : Nat) :
    (resolvePlayers p1 p2 r1 r2).q2.specialCooldown =
      (decayCooldown (afterSpecialSet p2)).specialCooldown := by
  unfold resolvePlayers
  simp [decayCooldown_applyDamage_cd]

theorem decay_afterSpecial_cd_le (p : BPlayer) (h : p.specialCooldown ≤ 2) :
    (decayCooldown (afterSpecialSet p)).specialCooldown ≤ 2 := by
  unfold afterSpecialSet decayCooldown
  split <;> split <;> simp_all
  omega

theorem decay_afterSpecial_special_cd (p : BPlayer)
    (ha : p.action = some "special") (hc : p.specialCooldown = 0) :
    (decayCooldown (afterSpecialSet p)).specialCooldown = 2 := by
  have h1 : afterSpecialSet p = { p with specialCooldown := 2 } := by
    unfold afterSpecialSet
    rw [if_pos ⟨ha, hc⟩]
  rw [h1]
  unfold decayCooldown
  rw [if_neg (fun hand => hand.2 ha)]

theorem decay_afterSpecial_other_cd (p : BPlayer) (ha : p.action ≠ some "special") :
    (decayCooldown (afterSpecialSet p)).specialCooldown = p.specialCooldown - 1 := by
  have h1 : afterSpecialSet p = p := by
    unfold afterSpecialSet
    rw [if_neg (fun hand => ha hand.1)]
  rw [h1]
  unfold decayCooldown
  split
  · rfl
  · rename_i hcond
    have hz : ¬ p.specialCooldown > 0 := fun hgt => hcond ⟨hgt, ha⟩
    omega

/-! ## Registry membership lemmas -/

theorem lookupMatch_mem (ms : List (String × Match)) (mid : String) (m : Match)
    (h : lookupMatch ms mid = some m) : (mid, m) ∈ ms := by
  unfold lookupMatch at h
  cases hf : ms.find? (fun q => q.1 == mid) with
  | none => rw [hf] at h; cases h
  | some q =>
      rw [hf] at h
      simp at h
      have hkey : q.1 = mid := by
        have := List.find?_some hf
        simpa using this
      have hmem := List.mem_of_find?_eq_some hf
      have : (mid, m) = q := by
        cases q with
        | mk a b => simp at hkey h; rw [hkey, h]
      rw [this]
      exact hmem

theorem mem_updateMatch (ms : List (String × Match)) (mid : String) (m : Match)
    (q : String × Match) (h : q ∈ updateMatch ms mid m) : q = (mid, m) ∨ q ∈ ms := by
  unfold updateMatch at h
  rcases List.mem_map.1 h with ⟨q0, hq0, heq⟩
  by_cases hb : q0.1 == mid
  · rw [if_pos hb] at heq
    left; exact heq.symm
  · rw [if_neg hb] at heq
    right; rw [← heq]; exact hq0

theorem mem_removeMatch (ms : List (String × Match)) (mid : String)
    (q : String × Match) (h : q ∈ removeMatch ms mid) : q ∈ ms :=
  List.mem_of_mem_filter h

theorem setBPAction_status (b : BattleState) (pid a : String) :
    (b.setBPAction pid a).status = b.status := by
  unfold BattleState.setBPAction
  split
  · rfl
  · split <;> rfl

theorem setBPAction_cd1 (b : BattleState) (pid a : String) :
    (b.setBPAction pid a).bp1.specialCooldown = b.bp1.specialCooldown := by
  unfold BattleState.setBPAction
  split
  · rfl
  · split <;> rfl

theorem setBPAction_cd2 (b : BattleState) (pid a : String) :
    (b.setBPAction pid a).bp2.specialCooldown = b.bp2.specialCooldown := by
  unfold BattleState.setBPAction
  split
  · rfl
  · split <;> rfl

/-- Registry contents after the accepting tail of `pvp:submit_action`:
any per-match property holding of every stored match, of the match with the
action recorded, and of a kept (non-deleted) resolution result, holds of
every match stored afterwards. -/
theorem recordAndResolve_matches (P : Match → Prop)
    (st : ServerState) (sock mid a : String) (m : Match) (player : Player) (r1 r2 : Nat)
    (hall : ∀ q ∈ st.activeMatches, P q.2)
    (hm1 : P (withAction m player.playerId a))
    (hres : (resolvedOut m player.playerId a r1 r2).2.2 = false →
        P (resolvedOut m player.playerId a r1 r2).1) :
    ∀ q ∈ (recordAndResolve st sock mid a m player r1 r2).1.activeMatches, P q.2 := by
  intro q hq
  unfold recordAndResolve at hq
  by_cases hAll : allSubmitted (withAction m player.playerId a).battleState
  · rw [if_pos hAll] at hq
    by_cases hdel : (resolvedOut m player.playerId a r1 r2).2.2 = true
    · rw [if_pos hdel] at hq
      exact hall q (mem_removeMatch st.activeMatches mid q hq)
    · rw [if_neg hdel] at hq
      rcases mem_updateMatch _ _ _ _ hq with heq | hmem
      · rw [heq]
        exact hres (by simpa using hdel)
      · exact hall q hmem
  · rw [if_neg hAll] at hq
    rcases mem_updateMatch _ _ _ _ hq with heq | hmem
    · rw [heq]
      exact hm1
    · exact hall q hmem

/-- Case transport for the matches held by the Registry after a
`pvp:submit_action` event: any per-match property holding of every stored
match, preserved by recording an action, by the transient `resolving`
status write, and by a non-final resolution, holds of every match stored
after the handler. -/
theorem submitAction_matches_preserved (P : Match → Prop)
    (st : ServerState) (sock mid a : String) (r1 r2 : Nat)
    (hall : ∀ q ∈ st.activeMatches, P q.2)
    (hset : ∀ (m : Match) (pid : String),
        P m → P (withAction m pid a))
    (hres : ∀ m2 : Match, (resolveTurn m2 r1 r2).2.2 = false →
        P m2 → P (resolveTurn m2 r1 r2).1)
    (hstat : ∀ m1 : Match, P m1 → P (withResolving m1)) :
    ∀ q ∈ (submitAction st sock mid a r1 r2).1.activeMatches, P q.2 := by
  intro q hq
  unfold submitAction at hq
  cases hL : lookupMatch st.activeMatches mid with
  | none => rw [hL] at hq; exact hall q hq
  | some m =>
      rw [hL] at hq
      dsimp only at hq
      have hPm : P m := hall (mid, m) (lookupMatch_mem st.activeMatches mid m hL)
      by_cases h1 : m.battleState.status ≠ "waiting_actions"
      · rw [if_pos h1] at hq; exact hall q hq
      · rw [if_neg h1] at hq
        cases hF : findPlayer m sock with
        | none => rw [hF] at hq; exact hall q hq
        | some player =>
            rw [hF] at hq
            dsimp only at hq
            cases hB : m.battleState.getBP player.playerId with
            | none => rw [hB] at hq; exact hall q hq
            | some bp =>
                rw [hB] at hq
                dsimp only at hq
                by_cases h2 : bp.action ≠ none
                · rw [if_pos h2] at hq; exact hall q hq
                · rw [if_neg h2] at hq
                  by_cases h3 : ¬ (a = "attack" ∨ a = "defend" ∨ a = "special")
                  · rw [if_pos h3] at hq; exact hall q hq
                  · rw [if_neg h3] at hq
                    by_cases h4 : a = "special" ∧ bp.specialCooldown > 0
                    · rw [if_pos h4] at hq; exact hall q hq
                    · rw [if_neg h4] at hq
                      refine recordAndResolve_matches P st sock mid a m player r1 r2
                        hall (hset m player.playerId hPm) ?_ q hq
                      intro hdel
                      exact hres _ hdel (hstat _ (hset m player.playerId hPm))

/-! ## Registry-level transport for the other handlers -/

theorem tryMatchPlayers_matches (st : ServerState) (nid : String)
    (q : String × Match) (hq : q ∈ (tryMatchPlayers st nid).1.activeMatches) :
    q ∈ st.activeMatches ∨ ∃ p1 p2, q.2 = newMatchFor nid p1 p2 := by
  unfold tryMatchPlayers at hq
  cases hW : st.waitingPlayers with
  | nil => rw [hW] at hq; exact Or.inl hq
  | cons p1 t =>
      cases hT : t with
      | nil =>
          rw [hW, hT] at hq
          exact Or.inl hq
      | cons p2 rest =>
          rw [hW, hT] at hq
          dsimp only at hq
          rcases List.mem_append.1 hq with h | h
          · exact Or.inl h
          · right
            simp at h
            exact ⟨p1, p2, by rw [h]⟩

theorem queueHandler_matches (st : ServerState) (sock pid un : String) (tr : Int)
    (nid : String) (q : String × Match)
    (hq : q ∈ (queueHandler st sock pid un tr nid).1.activeMatches) :
    q ∈ st.activeMatches ∨ ∃ p1 p2, q.2 = newMatchFor nid p1 p2 := by
  unfold queueHandler enqueueStep at hq
  dsimp only at hq
  rcases tryMatchPlayers_matches _ nid q hq with h | h
  · exact Or.inl h
  · exact Or.inr h

theorem disconnectHandler_matches (st : ServerState) (sock : String)
    (q : String × Match) (hq : q ∈ (disconnectHandler st sock).1.activeMatches) :
    q ∈ st.activeMatches := by
  unfold disconnectHandler at hq
  dsimp only at hq
  exact List.mem_of_mem_filter hq

/-! ## Claim C10 — cooldown range invariant -/

/-- Both combatants' cooldowns of a stored match are at most 2. -/
def cooldownBound (m : Match) : Prop :=
  m.battleState.bp1.specialCooldown ≤ 2 ∧ m.battleState.bp2.specialCooldown ≤ 2

/-- Every match tracked by the Registry satisfies `cooldownBound`. -/
def cooldownInv (st : ServerState) : Prop :=
  ∀ q ∈ st.activeMatches, cooldownBound q.2

theorem resolveTurn_cooldownBound (m2 : Match) (r1 r2 : Nat) (h : cooldownBound m2) :
    cooldownBound (resolveTurn m2 r1 r2).1 := by
  constructor
  · rw [show (resolveTurn m2 r1 r2).1.battleState.bp1.specialCooldown = _ from
      resolveTurn_cd1 m2 r1 r2, resolvePlayers_q1_cd]
    exact decay_afterSpecial_cd_le _ h.1
  · rw [show (resolveTurn m2 r1 r2).1.battleState.bp2.specialCooldown = _ from
      resolveTurn_cd2 m2 r1 r2, resolvePlayers_q2_cd]
    exact decay_afterSpecial_cd_le _ h.2

theorem withAction_cooldownBound (m : Match) (pid a : String) (h : cooldownBound m) :
    cooldownBound (withAction m pid a) := by
  unfold withAction cooldownBound
  dsimp only
  rw [setBPAction_cd1, setBPAction_cd2]
  exact h

/-- Claim C10 (implicit): every reachable cooldown lies in `{0, 1, 2}`:
cooldowns start at 0 when a battle is created, a resolved `special` sets the
cooldown to exactly 2 with no same-turn decay, any other action decrements
it by one while positive (the truncated subtraction `- 1` leaves 0 at 0),
the resolver keeps the bound `≤ 2`, and all three stateful handlers preserve
the bound for every match held by the Registry. -/
theorem cooldown_invariant :
    (∀ p1 p2 : Player, (createBattleState p1 p2).bp1.specialCooldown = 0 ∧
        (createBattleState p1 p2).bp2.specialCooldown = 0) ∧
    (∀ p1 p2 : BPlayer, ∀ r1 r2 : Nat, p1.specialCooldown ≤ 2 → p2.specialCooldown ≤ 2 →
        (resolvePlayers p1 p2 r1 r2).q1.specialCooldown ≤ 2 ∧
        (resolvePlayers p1 p2 r1 r2).q2.specialCooldown ≤ 2) ∧
    (∀ p1 p2 : BPlayer, ∀ r1 r2 : Nat, p1.action = some "special" → p1.specialCooldown = 0 →
        (resolvePlayers p1 p2 r1 r2).q1.specialCooldown = 2) ∧
    (∀ p1 p2 : BPlayer, ∀ r1 r2 : Nat, p2.action = some "special" → p2.specialCooldown = 0 →
        (resolvePlayers p1 p2 r1 r2).q2.specialCooldown = 2) ∧
    (∀ p1 p2 : BPlayer, ∀ r1 r2 : Nat, p1.action ≠ some "special" →
        (resolvePlayers p1 p2 r1 r2).q1.specialCooldown = p1.specialCooldown - 1) ∧
    (∀ p1 p2 : BPlayer, ∀ r1 r2 : Nat, p2.action ≠ some "special" →
        (resolvePlayers p1 p2 r1 r2).q2.specialCooldown = p2.specialCooldown - 1) ∧
    (∀ (st : ServerState) (sock mid a : String) (r1 r2 : Nat),
        cooldownInv st → cooldownInv (submitAction st sock mid a r1 r2).1) ∧
    (∀ (st : ServerState) (sock pid un : String) (tr : Int) (nid : String),
        cooldownInv st → cooldownInv (queueHandler st sock pid un tr nid).1) ∧
    (∀ (st : ServerState) (sock : String),
        cooldownInv st → cooldownInv (disconnectHandler st sock).1) := by
  refine ⟨fun p1 p2 => ⟨rfl, rfl⟩, ?_, ?_, ?_, ?_, ?_, ?_, ?_, ?_⟩
  · intro p1 p2 r1 r2 h1 h2
    rw [resolvePlayers_q1_cd, resolvePlayers_q2_cd]
    exact ⟨decay_afterSpecial_cd_le p1 h1, decay_afterSpecial_cd_le p2 h2⟩
  · intro p1 p2 r1 r2 ha hc
    rw [resolvePlayers_q1_cd]
    exact decay_afterSpecial_special_cd p1 ha hc
  · intro p1 p2 r1 r2 ha hc
    rw [resolvePlayers_q2_cd]
    exact decay_afterSpecial_special_cd p2 ha hc
  · intro p1 p2 r1 r2 ha
    rw [resolvePlayers_q1_cd]
    exact decay_afterSpecial_other_cd p1 ha
  · intro p1 p2 r1 r2 ha
    rw [resolvePlayers_q2_cd]
    exact decay_afterSpecial_other_cd p2 ha
  · intro st sock mid a r1 r2 hinv
    exact submitAction_matches_preserved cooldownBound st sock mid a r1 r2 hinv
      (fun m pid h => withAction_cooldownBound m pid a h)
      (fun m2 _ h => resolveTurn_cooldownBound m2 r1 r2 h)
      (fun m1 h => h)
  · intro st sock pid un tr nid hinv q hq
    rcases queueHandler_matches st sock pid un tr nid q hq with h | ⟨p1, p2, h⟩
    · exact hinv q h
    · rw [h]; exact ⟨Nat.zero_le 2, Nat.zero_le 2⟩
  · intro st sock hinv q hq
    exact hinv q (disconnectHandler_matches st sock q hq)

/-- A combatant about to use `special` with its cooldown elapsed, used in
witnesses. -/
def specialExample : BPlayer :=
  { base := ⟨"s2", "p2", "u2", 5⟩
    hp := 60
    maxHp := 100
    action := some "special"
    specialCooldown := 0 }

/-- Witness for C10 at a concrete pair of combatants. -/
theorem cooldown_invariant_witness :
    (resolvePlayers specialExample attackerExample 4 4).q1.specialCooldown ≤ 2 ∧
    (resolvePlayers specialExample attackerExample 4 4).q2.specialCooldown ≤ 2 :=
  cooldown_invariant.2.1 specialExample attackerExample 4 4 (by decide) (by decide)

/-! ## Claim C3 — Finished implies unreachable -/

/-- No match stored by the Registry has status `finished`. -/
def finishedFree (st : ServerState) : Prop :=
  ∀ q ∈ st.activeMatches, q.2.battleState.status ≠ "finished"

/-- The C3 counterexample battle: both combatants at 10 HP with `special`
recorded (reachable, e.g., after three mutual `attack` turns at roll 10
from 100 HP); the resolution finishes the match. -/
def koMatchB : Match :=
  { id := "m3"
    player1 := ⟨"sA", "A", "alice", 0⟩
    player2 := ⟨"sB", "B", "bob", 0⟩
    battleState :=
      { turn := 4, id1 := "A", id2 := "B"
        bp1 := { base := ⟨"sA", "A", "alice", 0⟩, hp := 10, maxHp := 100,
                 action := some "special", specialCooldown := 0 }
        bp2 := { base := ⟨"sB", "B", "bob", 0⟩, hp := 10, maxHp := 100,
                 action := some "special", specialCooldown := 0 }
        status := "resolving" } }

/-- Counterexample to C3: the winner branch of `resolveTurn` sets the status
to `finished` without clearing the combatants' pending actions, so the
finished session state retains both submitted actions (`"special"` here),
violating `pendingAction == None`. -/
theorem finished_pendingAction_counterexample :
    (resolveTurn koMatchB 0 0).1.battleState.status = "finished" ∧
    (resolveTurn koMatchB 0 0).1.battleState.bp1.action = some "special" ∧
    (resolveTurn koMatchB 0 0).1.battleState.bp2.action = some "special" ∧
    ¬ (resolveTurn koMatchB 0 0).1.battleState.bp1.action = none := by
  decide

/-- Claim C3 as amended: a `finished` status is never reachable through the
Registry — every handler preserves the absence of finished matches from
`activeMatches` (a finishing resolution deletes the match in the same
step) — but the combatants' pending actions are NOT cleared on finish: the
finished session state retains the final turn's submitted actions. -/
theorem finished_unreachable_but_actions_kept :
    (∀ (st : ServerState) (sock mid a : String) (r1 r2 : Nat),
        finishedFree st → finishedFree (submitAction st sock mid a r1 r2).1) ∧
    (∀ (st : ServerState) (sock pid un : String) (tr : Int) (nid : String),
        finishedFree st → finishedFree (queueHandler st sock pid un tr nid).1) ∧
    (∀ (st : ServerState) (sock : String),
        finishedFree st → finishedFree (disconnectHandler st sock).1) ∧
    (∀ (m : Match) (r1 r2 : Nat),
        (resolveTurn m r1 r2).1.battleState.status = "finished" →
        (resolveTurn m r1 r2).2.2 = true ∧
        (resolveTurn m r1 r2).1.battleState.bp1.action = m.battleState.bp1.action ∧
        (resolveTurn m r1 r2).1.battleState.bp2.action = m.battleState.bp2.action) := by
  refine ⟨?_, ?_, ?_, ?_⟩
  · intro st sock mid a r1 r2 hinv
    refine submitAction_matches_preserved (fun m => m.battleState.status ≠ "finished")
      st sock mid a r1 r2 hinv ?_ ?_ ?_
    · intro m pid h
      unfold withAction
      dsimp only
      rw [setBPAction_status]
      exact h
    · intro m2 hdel _
      rw [resolveTurn_not_finished_status m2 r1 r2 hdel]
      decide
    · intro m1 _
      exact fun hcon => absurd hcon (show ¬ ("resolving" = "finished") by decide)
  · intro st sock pid un tr nid hinv q hq
    rcases queueHandler_matches st sock pid un tr nid q hq with h | ⟨p1, p2, h⟩
    · exact hinv q h
    · rw [h]
      exact fun hcon => absurd hcon (show ¬ ("waiting_actions" = "finished") by decide)
  · intro st sock hinv q hq
    exact hinv q (disconnectHandler_matches st sock q hq)
  · intro m r1 r2 hfin
    have hdel := (resolveTurn_finished_iff m r1 r2).1 hfin
    exact ⟨hdel, resolveTurn_winner_actions m r1 r2 hdel⟩

/-- Witness for the amended C3 at the concrete finishing battle. -/
theorem finished_unreachable_witness :
    (resolveTurn koMatchB 0 0).2.2 = true ∧
    (resolveTurn koMatchB 0 0).1.battleState.bp1.action = koMatchB.battleState.bp1.action ∧
    (resolveTurn koMatchB 0 0).1.battleState.bp2.action = koMatchB.battleState.bp2.action := by
  have h := finished_unreachable_but_actions_kept.2.2.2 koMatchB 0 0 (by decide)
  exact ⟨h.1, h.2.1, h.2.2⟩

/-! ## Claim C4 — end-of-match effects -/

/-- Is this effect a call to the external player-profile collaborator? -/
def isTrophyCall : Event → Bool
  | Event.applyTrophyDelta _ _ => true
  | _ => false

/-- The C4 counterexample battle: the first combatant at full HP uses
`special` (30 damage), the second at 25 HP attacks with roll 3 (18 damage);
the second combatant's HP reaches 0 and the first wins. -/
def koMatchC : Match :=
  { id := "m4"
    player1 := ⟨"sA", "A", "alice", 0⟩
    player2 := ⟨"sB", "B", "bob", 0⟩
    battleState :=
      { turn := 3, id1 := "A", id2 := "B"
        bp1 := { base := ⟨"sA", "A", "alice", 0⟩, hp := 100, maxHp := 100,
                 action := some "special", specialCooldown := 0 }
        bp2 := { base := ⟨"sB", "B", "bob", 0⟩, hp := 25, maxHp := 100,
                 action := some "attack", specialCooldown := 0 }
        status := "resolving" } }

/-- Counterexample to C4: a turn resolution that declares a winner emits the
battle-end notices and drops the session, but performs no call to the
external player-profile collaborator — the trophy delta is only included in
the client notices, never forwarded for durable application. -/
theorem trophyForward_counterexample :
    (resolveTurn koMatchC 0 3).2.2 = true ∧
    Event.battleEnd "sA" "A" true 20 ∈ (resolveTurn koMatchC 0 3).2.1 ∧
    Event.battleEnd "sB" "A" false (-10) ∈ (resolveTurn koMatchC 0 3).2.1 ∧
    ((resolveTurn koMatchC 0 3).2.1.all (fun e => ! isTrophyCall e)) = true := by
  decide

/-- Claim C4 as amended: whenever a turn resolution declares a winner, the
status becomes `finished`, both participants receive a battle-end notice
whose trophy change is the fixed `+20` for the winner and `-10` for the
loser regardless of HP margin, trophy counts or turn count, and the session
is dropped from the Registry (the deletion flag is set) — but the trophy
delta is NOT forwarded to the external player-profile collaborator: the
emitted effects contain no such call. -/
theorem winner_finishes_and_notifies (m : Match) (r1 r2 : Nat)
    (hfin : (resolveTurn m r1 r2).1.battleState.status = "finished") :
    (resolveTurn m r1 r2).2.2 = true ∧
    (∃ w : String,
      Event.battleEnd m.player1.socketId w (m.player1.playerId == w)
        (if m.player1.playerId == w then 20 else -10) ∈ (resolveTurn m r1 r2).2.1 ∧
      Event.battleEnd m.player2.socketId w (m.player2.playerId == w)
        (if m.player2.playerId == w then 20 else -10) ∈ (resolveTurn m r1 r2).2.1) ∧
    (∀ e ∈ (resolveTurn m r1 r2).2.1, isTrophyCall e = false) := by
  have hdel := (resolveTurn_finished_iff m r1 r2).1 hfin
  refine ⟨hdel, ?_, ?_⟩
  · have hsome := (resolveTurn_deleted_iff_winner m r1 r2).1 hdel
    rcases Option.isSome_iff_exists.1 hsome with ⟨w, hw⟩
    exact ⟨w, resolveTurn_winner_events m r1 r2 w hw⟩
  · intro e he
    cases e with
    | applyTrophyDelta p d => exact absurd rfl (resolveTurn_no_external m r1 r2 _ he p d)
    | queued s n => rfl
    | matchFound s mi y o ou ot sh => rfl
    | opponentReady s => rfl
    | actionError s => rfl
    | turnResult s p y o => rfl
    | battleEnd s w b t => rfl
    | opponentDisconnect s => rfl

/-- Witness for the amended C4 at the concrete winning battle. -/
theorem winner_finishes_witness :
    (resolveTurn koMatchC 0 3).2.2 = true ∧
    (∀ e ∈ (resolveTurn koMatchC 0 3).2.1, isTrophyCall e = false) :=
  ⟨(winner_finishes_and_notifies koMatchC 0 3 (by decide)).1,
   (winner_finishes_and_notifies koMatchC 0 3 (by decide)).2.2⟩

/-! ## Claim C2 — queue pairing -/

def qA : Player := ⟨"sA", "A", "alice", 0⟩

def qB : Player := ⟨"sB", "B", "bob", 0⟩

def qC : Player := ⟨"sC", "C", "carol", 0⟩

def qD : Player := ⟨"sD", "D", "dan", 0⟩

/-- A queue holding four waiting entries at once. -/
def fourQueueState : ServerState := ⟨[qA, qB, qC, qD], []⟩

/-- The server state after the four joins A, B, C, D arrive in order on an
initially empty server (fresh match ids `m1`, `m2` injected). -/
def joinState1 : ServerState := (queueHandler ⟨[], []⟩ "sA" "A" "alice" 0 "m1").1

def joinState2 : ServerState := (queueHandler joinState1 "sB" "B" "bob" 0 "m1").1

def joinState3 : ServerState := (queueHandler joinState2 "sC" "C" "carol" 0 "m2").1

def joinState4 : ServerState := (queueHandler joinState3 "sD" "D" "dan" 0 "m2").1

/-- Counterexample to C2: `tryMatchPlayers` has no loop — a single call on a
four-entry queue pairs only the two front entries and leaves two entries
waiting, so it is not the case that fewer than two entries remain after the
call. -/
theorem tryPairAll_counterexample :
    (tryMatchPlayers fourQueueState "m1").1.waitingPlayers = [qC, qD] ∧
    ¬ (tryMatchPlayers fourQueueState "m1").1.waitingPlayers.length < 2 ∧
    (tryMatchPlayers fourQueueState "m1").1.activeMatches.length = 1 := by
  decide

/-- Claim C2 as amended: a single call to `tryMatchPlayers` pairs at most
one pair — the two front-most (earliest-joined) entries — leaving the rest;
a call on a queue with fewer than two entries changes nothing.  Because the
handler calls it after every enqueue, the queue holds at most one entry
after each join handler completes, and the four joins [A,B,C,D] produce the
pairings (A,B) and then (C,D). -/
theorem tryMatch_pairs_front_two :
    (∀ (st : ServerState) (p1 p2 : Player) (rest : List Player) (nid : String),
        st.waitingPlayers = p1 :: p2 :: rest →
        (tryMatchPlayers st nid).1.waitingPlayers = rest ∧
        (tryMatchPlayers st nid).1.activeMatches =
          st.activeMatches ++ [(nid, newMatchFor nid p1 p2)]) ∧
    (∀ (st : ServerState) (nid : String), st.waitingPlayers.length ≤ 1 →
        (tryMatchPlayers st nid).1 = st) ∧
    (∀ (st : ServerState) (sock pid un : String) (tr : Int) (nid : String),
        st.waitingPlayers.length ≤ 1 →
        (queueHandler st sock pid un tr nid).1.waitingPlayers.length ≤ 1) ∧
    (joinState4.waitingPlayers = [] ∧
     joinState4.activeMatches.map (fun q => (q.1, q.2.player1, q.2.player2)) =
       [("m1", qA, qB), ("m2", qC, qD)]) := by
  have hlen2 : ∀ (st : ServerState) (nid : String), st.waitingPlayers.length ≤ 2 →
      (tryMatchPlayers st nid).1.waitingPlayers.length ≤ 1 := by
    intro st nid h
    unfold tryMatchPlayers
    cases hW : st.waitingPlayers with
    | nil => simp [hW]
    | cons x t =>
        cases hT : t with
        | nil => simp [hW, hT]
        | cons y r =>
            rw [hW, hT] at h
            dsimp only
            simp at h
            simp [h]
  refine ⟨?_, ?_, ?_, by decide⟩
  · intro st p1 p2 rest nid h
    unfold tryMatchPlayers
    rw [h]
    exact ⟨rfl, rfl⟩
  · intro st nid h
    unfold tryMatchPlayers
    cases hW : st.waitingPlayers with
    | nil => rfl
    | cons x t =>
        cases hT : t with
        | nil => rfl
        | cons y r =>
            rw [hW, hT] at h
            simp at h
  · intro st sock pid un tr nid h
    unfold queueHandler
    dsimp only
    refine hlen2 _ nid ?_
    unfold enqueueStep
    dsimp only
    rw [List.length_append]
    have hle : (st.waitingPlayers.eraseP (fun p => p.playerId == pid)).length ≤
        st.waitingPlayers.length := List.length_eraseP_le st.waitingPlayers
    simp
    omega

/-- Witness for the amended C2 at the concrete four-entry queue. -/
theorem tryMatch_pairs_front_two_witness :
    (tryMatchPlayers fourQueueState "m1").1.waitingPlayers = [qC, qD] ∧
    (tryMatchPlayers fourQueueState "m1").1.activeMatches =
      [("m1", newMatchFor "m1" qA qB)] := by
  have h := tryMatch_pairs_front_two.1 fourQueueState qA qB [qC, qD] "m1" rfl
  exact ⟨h.1, h.2⟩

/-! ## Claim C8 — queue uniqueness and position -/

/-- Each `playerId` occurs in at most one waiting entry. -/
def uniquePids (l : List Player) : Prop :=
  l.Pairwise (fun p q => p.playerId ≠ q.playerId)

/-- Removing the first entry matching a key from a list whose keys are
pairwise distinct leaves no entry with that key. -/
theorem eraseP_key_eliminates {α : Type} (key : α → String) (v : String) :
    ∀ l : List α, l.Pairwise (fun a b => key a ≠ key b) →
      ∀ x ∈ l.eraseP (fun a => key a == v), key x ≠ v := by
  intro l
  induction l with
  | nil => intro _ x hx; simp [List.eraseP] at hx
  | cons a t ih =>
      intro hp x hx
      rw [List.eraseP_cons] at hx
      by_cases ha : (key a == v) = true
      · rw [ha] at hx
        have hav : key a = v := by simpa using ha
        intro hxv
        exact (List.pairwise_cons.1 hp).1 x hx (by rw [hav, hxv])
      · rw [Bool.of_not_eq_true ha] at hx
        simp only [cond_false] at hx
        rcases List.mem_cons.1 hx with rfl | hx2
        · simpa using ha
        · exact ih (List.pairwise_cons.1 hp).2 x hx2

/-- Under the uniqueness invariant, the splice step of the `pvp:queue`
handler removes every entry carrying the joining player's id. -/
theorem uniquePids_eraseP (pid : String) (l : List Player) (h : uniquePids l) :
    ∀ x ∈ l.eraseP (fun p => p.playerId == pid), x.playerId ≠ pid := by
  have h2 : l.Pairwise (fun a b => a.playerId ≠ b.playerId) := h
  exact eraseP_key_eliminates (fun q : Player => q.playerId) pid l h2

/-- Under per-socket uniqueness, the splice steps of the `pvp:leave` and
`disconnect` handlers remove every entry carrying the socket. -/
theorem uniqueSocks_eraseP (sock : String) (l : List Player)
    (h : l.Pairwise (fun p q => p.socketId ≠ q.socketId)) :
    ∀ x ∈ l.eraseP (fun p => p.socketId == sock), x.socketId ≠ sock :=
  eraseP_key_eliminates (fun q : Player => q.socketId) sock l h

theorem enqueueStep_unique (st : ServerState) (sock pid un : String) (tr : Int)
    (h : uniquePids st.waitingPlayers) :
    uniquePids (enqueueStep st sock pid un tr).1.waitingPlayers := by
  unfold enqueueStep uniquePids
  dsimp only
  rw [List.pairwise_append]
  refine ⟨List.Pairwise.sublist (List.eraseP_sublist _) h, List.pairwise_singleton _ _, ?_⟩
  intro p hp b hb
  rw [List.mem_singleton.1 hb]
  exact uniquePids_eraseP pid st.waitingPlayers h p hp

theorem tryMatch_waiting_sublist (st : ServerState) (nid : String) :
    List.Sublist (tryMatchPlayers st nid).1.waitingPlayers st.waitingPlayers := by
  unfold tryMatchPlayers
  cases hW : st.waitingPlayers with
  | nil =>
      dsimp only
      rw [hW]
  | cons x t =>
      cases hT : t with
      | nil =>
          dsimp only
          rw [hW, hT]
      | cons y r =>
          dsimp only
          exact ((List.Sublist.refl r).cons y).cons x

/-- Claim C8: a `playerId` occurs in at most one waiting entry at all times
(the invariant is preserved by every queue-mutating handler); a join for an
already-queued `playerId` first removes the existing entry and appends the
fresh entry at the back (so under the invariant the fresh entry is the only
one with that id, and it is the last element); and the reported queue
position is the 1-based position of the appended entry, namely the length
of the queue after the append. -/
theorem queue_uniqueness_and_position :
    (∀ (st : ServerState) (sock pid un : String) (tr : Int) (nid : String),
        uniquePids st.waitingPlayers →
        uniquePids (queueHandler st sock pid un tr nid).1.waitingPlayers) ∧
    (∀ (st : ServerState) (sock : String), uniquePids st.waitingPlayers →
        uniquePids (leaveQueue st sock).waitingPlayers) ∧
    (∀ (st : ServerState) (sock : String), uniquePids st.waitingPlayers →
        uniquePids (disconnectHandler st sock).1.waitingPlayers) ∧
    (∀ (st : ServerState) (sock pid un : String) (tr : Int),
        uniquePids st.waitingPlayers →
        ∀ p ∈ (enqueueStep st sock pid un tr).1.waitingPlayers,
          p.playerId = pid → p = ⟨sock, pid, un, tr⟩) ∧
    (∀ (st : ServerState) (sock pid un : String) (tr : Int),
        (enqueueStep st sock pid un tr).2 =
          (enqueueStep st sock pid un tr).1.waitingPlayers.length ∧
        (enqueueStep st sock pid un tr).1.waitingPlayers.getLast? =
          some ⟨sock, pid, un, tr⟩) ∧
    (∀ (st : ServerState) (sock pid un : String) (tr : Int) (nid : String),
        (queueHandler st sock pid un tr nid).2.head? =
          some (Event.queued sock (enqueueStep st sock pid un tr).2)) := by
  refine ⟨?_, ?_, ?_, ?_, ?_, ?_⟩
  · intro st sock pid un tr nid h
    unfold queueHandler
    dsimp only
    exact List.Pairwise.sublist (tryMatch_waiting_sublist _ nid)
      (enqueueStep_unique st sock pid un tr h)
  · intro st sock h
    unfold leaveQueue
    exact List.Pairwise.sublist (List.eraseP_sublist _) h
  · intro st sock h
    unfold disconnectHandler
    dsimp only
    exact List.Pairwise.sublist (List.eraseP_sublist _) h
  · intro st sock pid un tr h p hp hpid
    unfold enqueueStep at hp
    dsimp only at hp
    rcases List.mem_append.1 hp with h1 | h2
    · exact absurd hpid (uniquePids_eraseP pid _ h p h1)
    · exact List.mem_singleton.1 h2
  · intro st sock pid un tr
    exact ⟨rfl, List.getLast?_concat _⟩
  · intro st sock pid un tr nid
    rfl

/-- A queue already holding an entry for player `B`, used in the C8
witness. -/
def requeueState : ServerState := ⟨[qB, qA], []⟩

/-- Witness for C8: re-joining with `B`'s id on a two-entry queue keeps the
invariant, and the fresh entry is the only entry with that id. -/
theorem queue_uniqueness_witness :
    uniquePids (queueHandler requeueState "sB2" "B" "bob" 7 "m9").1.waitingPlayers ∧
    (∀ p ∈ (enqueueStep requeueState "sB2" "B" "bob" 7).1.waitingPlayers,
        p.playerId = "B" → p = ⟨"sB2", "B", "bob", 7⟩) := by
  constructor
  · exact queue_uniqueness_and_position.1 requeueState "sB2" "B" "bob" 7 "m9"
      (by unfold uniquePids; decide)
  · exact queue_uniqueness_and_position.2.2.2.1 requeueState "sB2" "B" "bob" 7
      (by unfold uniquePids; decide)

/-! ## Claim C5 — submit-action rejections -/

/-- Claim C5: `pvp:submit_action` leaves the entire server state unchanged
when the match id is unknown, when the session is not in `waiting_actions`,
when the submitting socket does not belong to the session, when that
combatant already has a pending action this turn (duplicate submission),
when the action is not one of attack / defend / special, or when the action
is `special` while that combatant's cooldown is positive — and of these only
the special-on-cooldown case emits an event, the cooldown error notice to
the submitter. -/
theorem submitAction_rejections :
    (∀ (st : ServerState) (sock mid a : String) (r1 r2 : Nat),
        lookupMatch st.activeMatches mid = none →
        submitAction st sock mid a r1 r2 = (st, [])) ∧
    (∀ (st : ServerState) (sock mid a : String) (r1 r2 : Nat) (m : Match),
        lookupMatch st.activeMatches mid = some m →
        m.battleState.status ≠ "waiting_actions" →
        submitAction st sock mid a r1 r2 = (st, [])) ∧
    (∀ (st : ServerState) (sock mid a : String) (r1 r2 : Nat) (m : Match),
        lookupMatch st.activeMatches mid = some m →
        findPlayer m sock = none →
        submitAction st sock mid a r1 r2 = (st, [])) ∧
    (∀ (st : ServerState) (sock mid a : String) (r1 r2 : Nat) (m : Match)
        (player : Player) (bp : BPlayer),
        lookupMatch st.activeMatches mid = some m →
        m.battleState.status = "waiting_actions" →
        findPlayer m sock = some player →
        m.battleState.getBP player.playerId = some bp →
        bp.action ≠ none →
        submitAction st sock mid a r1 r2 = (st, [])) ∧
    (∀ (st : ServerState) (sock mid a : String) (r1 r2 : Nat) (m : Match)
        (player : Player) (bp : BPlayer),
        lookupMatch st.activeMatches mid = some m →
        m.battleState.status = "waiting_actions" →
        findPlayer m sock = some player →
        m.battleState.getBP player.playerId = some bp →
        bp.action = none →
        ¬ (a = "attack" ∨ a = "defend" ∨ a = "special") →
        submitAction st sock mid a r1 r2 = (st, [])) ∧
    (∀ (st : ServerState) (sock mid : String) (r1 r2 : Nat) (m : Match)
        (player : Player) (bp : BPlayer),
        lookupMatch st.activeMatches mid = some m →
        m.battleState.status = "waiting_actions" →
        findPlayer m sock = some player →
        m.battleState.getBP player.playerId = some bp →
        bp.action = none →
        bp.specialCooldown > 0 →
        submitAction st sock mid "special" r1 r2 = (st, [Event.actionError sock])) := by
  refine ⟨?_, ?_, ?_, ?_, ?_, ?_⟩
  · intro st sock mid a r1 r2 hL
    unfold submitAction
    rw [hL]
  · intro st sock mid a r1 r2 m hL hS
    unfold submitAction
    rw [hL]
    dsimp only
    rw [if_pos hS]
  · intro st sock mid a r1 r2 m hL hF
    unfold submitAction
    rw [hL]
    dsimp only
    by_cases hS : m.battleState.status ≠ "waiting_actions"
    · rw [if_pos hS]
    · rw [if_neg hS, hF]
  · intro st sock mid a r1 r2 m player bp hL hS hF hB hA
    unfold submitAction
    rw [hL]
    dsimp only
    rw [if_neg (by simp [hS]), hF]
    dsimp only
    rw [hB]
    dsimp only
    rw [if_pos hA]
  · intro st sock mid a r1 r2 m player bp hL hS hF hB hA hV
    unfold submitAction
    rw [hL]
    dsimp only
    rw [if_neg (by simp [hS]), hF]
    dsimp only
    rw [hB]
    dsimp only
    rw [if_neg (by simp [hA]), if_pos hV]
  · intro st sock mid r1 r2 m player bp hL hS hF hB hA hC
    unfold submitAction
    rw [hL]
    dsimp only
    rw [if_neg (by simp [hS]), hF]
    dsimp only
    rw [hB]
    dsimp only
    rw [if_neg (by simp [hA]), if_neg (by simp), if_pos (by exact ⟨rfl, hC⟩)]

/-- A match whose first combatant has `special` on cooldown, with its
server state, used in the C5 witness. -/
def cooldownMatch : Match :=
  { id := "mX"
    player1 := ⟨"sA", "A", "alice", 0⟩
    player2 := ⟨"sB", "B", "bob", 0⟩
    battleState :=
      { turn := 2, id1 := "A", id2 := "B"
        bp1 := { base := ⟨"sA", "A", "alice", 0⟩, hp := 70, maxHp := 100,
                 action := none, specialCooldown := 2 }
        bp2 := { base := ⟨"sB", "B", "bob", 0⟩, hp := 55, maxHp := 100,
                 action := none, specialCooldown := 0 }
        status := "waiting_actions" } }

def cooldownState : ServerState := ⟨[], [("mX", cooldownMatch)]⟩

/-- Witness for C5: submitting `special` while on cooldown changes nothing
and sends exactly the cooldown error notice to the submitter. -/
theorem submitAction_rejections_witness :
    submitAction cooldownState "sA" "mX" "special" 0 0 =
      (cooldownState, [Event.actionError "sA"]) :=
  submitAction_rejections.2.2.2.2.2 cooldownState "sA" "mX" 0 0 cooldownMatch
    cooldownMatch.player1 cooldownMatch.battleState.bp1
    (by decide) (by decide) (by decide) (by decide) (by decide) (by decide)

/-! ## Claim C9 — disconnect handling -/

theorem findOpponent_of_first (m : Match) (sock : String)
    (h1 : m.player1.socketId = sock) (h2 : m.player2.socketId ≠ sock) :
    findOpponent m sock = some m.player2 := by
  unfold findOpponent
  rw [List.find?_cons_of_neg, List.find?_cons_of_pos] <;> simp [h1, h2]

theorem findOpponent_of_second (m : Match) (sock : String)
    (h1 : m.player1.socketId ≠ sock) :
    findOpponent m sock = some m.player1 := by
  unfold findOpponent
  rw [List.find?_cons_of_pos]
  simp [h1]

/-- Claim C9: on a disconnect, every active match containing the departing
socket is removed from tracking and the remaining participant receives the
opponent-disconnect notice; no battle-end notice and no trophy-delta
forwarding is emitted for anyone; and a queued entry of the departing
socket is withdrawn from the waiting list (the first matching entry is
spliced out, which under at-most-one-entry-per-socket removes it
entirely). -/
theorem disconnect_spec :
    (∀ (st : ServerState) (sock : String) (q : String × Match),
        q ∈ st.activeMatches → matchHasSocket q.2 sock = true →
        q ∉ (disconnectHandler st sock).1.activeMatches) ∧
    (∀ (st : ServerState) (sock : String) (q : String × Match),
        q ∈ (disconnectHandler st sock).1.activeMatches →
        matchHasSocket q.2 sock = false) ∧
    (∀ (st : ServerState) (sock : String) (mid : String) (m : Match),
        (mid, m) ∈ st.activeMatches → m.player1.socketId = sock →
        m.player2.socketId ≠ sock →
        Event.opponentDisconnect m.player2.socketId ∈ (disconnectHandler st sock).2) ∧
    (∀ (st : ServerState) (sock : String) (mid : String) (m : Match),
        (mid, m) ∈ st.activeMatches → m.player2.socketId = sock →
        m.player1.socketId ≠ sock →
        Event.opponentDisconnect m.player1.socketId ∈ (disconnectHandler st sock).2) ∧
    (∀ (st : ServerState) (sock : String), ∀ e ∈ (disconnectHandler st sock).2,
        (∀ s w b t, e ≠ Event.battleEnd s w b t) ∧
        (∀ pid d, e ≠ Event.applyTrophyDelta pid d)) ∧
    (∀ (st : ServerState) (sock : String),
        st.waitingPlayers.Pairwise (fun p q => p.socketId ≠ q.socketId) →
        ∀ p ∈ (disconnectHandler st sock).1.waitingPlayers, p.socketId ≠ sock) := by
  refine ⟨?_, ?_, ?_, ?_, ?_, ?_⟩
  · intro st sock q hq hhas hmem
    unfold disconnectHandler at hmem
    dsimp only at hmem
    have hf := List.of_mem_filter hmem
    rw [hhas] at hf
    exact absurd hf (by decide)
  · intro st sock q hmem
    unfold disconnectHandler at hmem
    dsimp only at hmem
    have hf := List.of_mem_filter hmem
    simpa using hf
  · intro st sock mid m hq h1 h2
    unfold disconnectHandler
    dsimp only
    refine List.mem_flatMap.2 ⟨(mid, m), List.mem_filter.2 ⟨hq, ?_⟩, ?_⟩
    · simp [matchHasSocket, h1]
    · rw [show findOpponent (mid, m).2 sock = some m.player2 from
        findOpponent_of_first m sock h1 h2]
      exact List.mem_singleton.2 rfl
  · intro st sock mid m hq h2 h1
    unfold disconnectHandler
    dsimp only
    refine List.mem_flatMap.2 ⟨(mid, m), List.mem_filter.2 ⟨hq, ?_⟩, ?_⟩
    · simp [matchHasSocket, h2]
    · rw [show findOpponent (mid, m).2 sock = some m.player1 from
        findOpponent_of_second m sock h1]
      exact List.mem_singleton.2 rfl
  · intro st sock e he
    unfold disconnectHandler at he
    dsimp only at he
    rcases List.mem_flatMap.1 he with ⟨q, _, he2⟩
    cases hF : findOpponent q.2 sock with
    | none => rw [hF] at he2; cases he2
    | some opp =>
        rw [hF] at he2
        rw [List.mem_singleton.1 he2]
        exact ⟨fun s w b t => by simp, fun pid d => by simp⟩
  · intro st sock hpw p hp
    unfold disconnectHandler at hp
    dsimp only at hp
    exact uniqueSocks_eraseP sock st.waitingPlayers hpw p hp

/-- A state with one active match and one queued entry, used in the C9
witness. -/
def disconnectState : ServerState := ⟨[qC], [("m5", koMatchC)]⟩

/-- Witness for C9: when `sA` disconnects, its match is dropped, the
opponent `sB` is notified, and no trophy events are emitted. -/
theorem disconnect_spec_witness :
    ("m5", koMatchC) ∉ (disconnectHandler disconnectState "sA").1.activeMatches ∧
    Event.opponentDisconnect "sB" ∈ (disconnectHandler disconnectState "sA").2 := by
  constructor
  · exact disconnect_spec.1 disconnectState "sA" ("m5", koMatchC)
      (by decide) (by decide)
  · exact disconnect_spec.2.2.1 disconnectState "sA" "m5" koMatchC
      (by decide) (by decide) (by decide)

end Capybara
